import Mathlib

/-
Verification development for the Knightmare chess server.
The definitions below are a shallow embedding of the JavaScript source:
stockfishConfig.js (difficulty table and option lookup),
stockfishService.js (engine process supervisor), and
gameService.js (move handling and post-game analysis).
External collaborators (the chess.js rules engine, the Stockfish process,
the database) are modelled as explicit parameters or oracles, so every
definition is executable on concrete inputs.
-/

namespace Knightmare

/-! ## Evaluations (gameService.js, analyzeGame) -/

/-- The two evaluation kinds reported by the engine: centipawn or mate-in-N. -/
inductive EvalType where
  | cp
  | mate
deriving DecidableEq, Repr

/-- An engine evaluation: kind plus signed value, relative to the side to move. -/
structure Evaluation where
  type : EvalType
  value : Int
deriving DecidableEq, Repr

/-- The mate bonus constant `MATE_VALUE` from analyzeGame. -/
def MATE_VALUE : Int := 10000

/--
`getCpValue` from analyzeGame: converts an evaluation to a single integer on a
centipawn-like scale. A cp value passes through; a mate value maps to
sign times (MATE_VALUE minus moves-to-mate), with mate 0 returned as 0.
-/
def getCpValue (evaluation : Evaluation) : Int :=
  match evaluation.type with
  | .cp => evaluation.value
  | .mate =>
    if evaluation.value = 0 then 0
    else Int.sign evaluation.value * (MATE_VALUE - |evaluation.value|)

/-- Threshold constant from analyzeGame: 1.5 pawns. -/
def MISTAKE_THRESHOLD : Int := 150

/-- Threshold constant from analyzeGame: 3 pawns. -/
def BLUNDER_THRESHOLD : Int := 300

/--
The mover-viewpoint post-move score used by the classification step of
analyzeGame: 10000 for the synthesized checkmate-delivered evaluation
(mate with value 0), otherwise the sign-flipped `getCpValue`.
-/
def cpActualResultOf (evalAfter : Evaluation) : Int :=
  if evalAfter.type = EvalType.mate ∧ evalAfter.value = 0 then 10000
  else -1 * getCpValue evalAfter

/-- Result of the move-quality classification for one human ply. -/
structure MoveQuality where
  isMistake : Bool
  isBlunder : Bool
  comment : String
deriving DecidableEq, Repr

/-- JavaScript string interpolation of the possibly-null recommended move. -/
def showBestMove : Option String → String
  | some s => s
  | none => "null"

/--
The local constant `evalDiff` of the classification step: `cpStart` (pre-move
advantage) minus `cpActualResult` (mover-viewpoint post-move score).
-/
def evalDiffOf (evalStart evalAfter : Evaluation) : Int :=
  getCpValue evalStart - cpActualResultOf evalAfter

/--
The classification step of analyzeGame, evaluated only for human plies:
blunder when the drop exceeds BLUNDER_THRESHOLD, otherwise mistake when it
exceeds MISTAKE_THRESHOLD, otherwise a missed-mate mistake when the pre-move
evaluation was a mate and the post-move one no longer is.
-/
def classifyHumanMove (evalStart evalAfter : Evaluation) (bestMoveStart : Option String) :
    MoveQuality :=
  if evalDiffOf evalStart evalAfter > BLUNDER_THRESHOLD then
    ⟨false, true, "Blunder. You lost significant advantage. Best was " ++
      showBestMove bestMoveStart ++ "."⟩
  else if evalDiffOf evalStart evalAfter > MISTAKE_THRESHOLD then
    ⟨true, false, "Mistake. Best move was " ++ showBestMove bestMoveStart ++ "."⟩
  else if evalStart.type = EvalType.mate ∧ evalAfter.type ≠ EvalType.mate then
    ⟨true, false, "Missed Mate. Best move was " ++ showBestMove bestMoveStart ++ "."⟩
  else
    ⟨false, false, ""⟩

/-! ## Difficulty configuration (stockfishConfig.js) -/

/-- One row of the fixed difficulty table. -/
structure DifficultyConfig where
  skillLevel : Nat
  depth : Nat
  movetime : Nat
  elo : Nat
  contempt : Int
deriving DecidableEq, Repr

/-- The `stockfishDifficultyLevels` object: levels 1 through 10. -/
def stockfishDifficultyLevels : List (Nat × DifficultyConfig) :=
  [(1, ⟨0, 1, 1000, 800, -100⟩),
   (2, ⟨2, 2, 100, 1000, -75⟩),
   (3, ⟨4, 3, 150, 1200, -50⟩),
   (4, ⟨6, 4, 200, 1400, -25⟩),
   (5, ⟨8, 5, 250, 1600, 0⟩),
   (6, ⟨10, 6, 300, 1800, 25⟩),
   (7, ⟨12, 8, 400, 2000, 50⟩),
   (8, ⟨14, 10, 500, 2200, 75⟩),
   (9, ⟨16, 12, 750, 2400, 100⟩),
   (10, ⟨20, 15, 1000, 3000, 100⟩)]

/-- Property access `stockfishDifficultyLevels[level]` on the table object. -/
def lookupLevel (level : Nat) : Option DifficultyConfig :=
  (stockfishDifficultyLevels.find? (fun p => p.1 == level)).map (fun p => p.2)

/-- The value returned by `getStockfishOptionsForDifficulty`. -/
structure EngineOptions where
  options : List String
  searchParams : String
deriving DecidableEq, Repr

/--
`getStockfishOptionsForDifficulty` from stockfishConfig.js: looks the level up
in the table, throws a validation error when absent, otherwise builds the UCI
option command list and the search-parameter command.
-/
def getStockfishOptionsForDifficulty (level : Nat) : Except String EngineOptions :=
  match lookupLevel level with
  | none =>
    .error ("Invalid difficulty level: " ++ toString level ++ ". Must be between 1 and 10.")
  | some config =>
    .ok { options :=
            ["setoption name Skill Level value " ++ toString config.skillLevel,
             "setoption name UCI_LimitStrength value true",
             "setoption name UCI_Elo value " ++ toString config.elo,
             "setoption name Contempt value " ++ toString config.contempt],
          searchParams :=
            "go depth " ++ toString config.depth ++ " movetime " ++ toString config.movetime }

/-- Skill parameter of a level (0 when the level is absent from the table). -/
def levelSkill (l : Nat) : Nat := ((lookupLevel l).map (fun c => c.skillLevel)).getD 0

/-- Depth ceiling of a level (0 when absent). -/
def levelDepth (l : Nat) : Nat := ((lookupLevel l).map (fun c => c.depth)).getD 0

/-- Move-time budget of a level (0 when absent). -/
def levelMovetime (l : Nat) : Nat := ((lookupLevel l).map (fun c => c.movetime)).getD 0

/-- Target rating of a level (0 when absent). -/
def levelElo (l : Nat) : Nat := ((lookupLevel l).map (fun c => c.elo)).getD 0

/-- Draw-avoidance bias of a level (0 when absent). -/
def levelContempt (l : Nat) : Int := ((lookupLevel l).map (fun c => c.contempt)).getD 0

/-- Whether a lookup result is a usable, non-empty configuration. -/
def okNonEmpty : Except String EngineOptions → Bool
  | .ok c => !c.options.isEmpty && !c.searchParams.isEmpty
  | .error _ => false

/-- Whether an Except value is a success. -/
def exceptIsOk {ε α : Type} : Except ε α → Bool
  | .ok _ => true
  | .error _ => false

/-! ## Engine process supervisor (stockfishService.js)

The `stockfishProcesses` map, process spawning and the UCI handshake are
modelled by an explicit supervisor state: the registry association list
(gameId to entry), the set of live process ids, a fresh-id counter for
spawning, and a spawn-event counter. The responses awaited from the engine
process are supplied by a `HandshakeOracle`. -/

/-- A registry entry: the child process and its response buffer. -/
structure EngineEntry where
  proc : Nat
  responseBuffer : String
deriving DecidableEq, Repr

/-- Supervisor state: the `stockfishProcesses` map plus the process world. -/
structure SupState where
  registry : List (String × EngineEntry)
  alive : List Nat
  nextId : Nat
  spawnCount : Nat
deriving DecidableEq, Repr

/-- `Map.get` on the registry. -/
def lookupGame (g : String) : List (String × EngineEntry) → Option EngineEntry
  | [] => none
  | (k, e) :: rest => if k = g then some e else lookupGame g rest

/-- `Map.delete` on the registry. -/
def eraseGame (g : String) : List (String × EngineEntry) → List (String × EngineEntry)
  | [] => []
  | (k, e) :: rest => if k = g then eraseGame g rest else (k, e) :: eraseGame g rest

/-- `Map.set` on the registry: replace an existing key or append a new one. -/
def setGame (g : String) (e : EngineEntry) :
    List (String × EngineEntry) → List (String × EngineEntry)
  | [] => [(g, e)]
  | (k, e0) :: rest => if k = g then (g, e) :: rest else (k, e0) :: setGame g e rest

/--
`terminateEngine` from stockfishService.js: if an entry exists for the
gameId, kill its process and delete the registry entry; otherwise a no-op.
-/
def terminateEngine (g : String) (st : SupState) : SupState :=
  match lookupGame g st.registry with
  | some entry =>
    { registry := eraseGame g st.registry, alive := st.alive.erase entry.proc,
      nextId := st.nextId, spawnCount := st.spawnCount }
  | none => st

/-- Outcomes of the three awaited handshake responses. -/
structure HandshakeOracle where
  uci : Except String String
  isready1 : Except String String
  isready2 : Except String String

/--
The awaited part of the initializeEngine body, in source order: await
uci/uciok, look up and write the difficulty options, await the first
isready/readyok, write ucinewgame, await the second isready/readyok.
-/
def handshakeSteps (difficulty : Nat) (o : HandshakeOracle) : Except String Unit :=
  match o.uci with
  | .error e => .error e
  | .ok _ =>
    match getStockfishOptionsForDifficulty difficulty with
    | .error e => .error e
    | .ok _ =>
      match o.isready1 with
      | .error e => .error e
      | .ok _ =>
        match o.isready2 with
        | .error e => .error e
        | .ok _ => .ok ()

/--
The guard at the top of initializeEngine: if an engine already exists for
this gameId, terminate the old instance first.
-/
def preStartState (g : String) (st : SupState) : SupState :=
  if (lookupGame g st.registry).isSome then terminateEngine g st else st

/--
`spawn(STOCKFISH_PATH)` followed by `stockfishProcesses.set(gameId, ...)`:
allocate the next process id, register it with an empty response buffer.
-/
def spawnFor (g : String) (st : SupState) : SupState :=
  { registry := setGame g ⟨st.nextId, ""⟩ st.registry, alive := st.nextId :: st.alive,
    nextId := st.nextId + 1, spawnCount := st.spawnCount + 1 }

/--
`initializeEngine` from stockfishService.js: terminate any previous session
for the gameId, spawn and register a fresh process, then run the handshake;
on any failure the catch block kills the current process for the gameId,
removes the registry entry (the same cleanup `terminateEngine` performs),
and surfaces the fixed generic error message.
-/
def initializeEngine (g : String) (difficulty : Nat) (o : HandshakeOracle) (st : SupState) :
    SupState × Except String Unit :=
  match handshakeSteps difficulty o with
  | .ok _ => (spawnFor g (preStartState g st), .ok ())
  | .error _ =>
    (terminateEngine g (spawnFor g (preStartState g st)),
     .error ("Failed to initialize Stockfish engine."))

/--
The registry invariant: gameIds are unique, process ids are unique, every
registered process is live, and live processes have ids below the fresh
counter.
-/
def SupInv (st : SupState) : Prop :=
  (st.registry.map Prod.fst).Nodup ∧
  (st.registry.map (fun p => p.2.proc)).Nodup ∧
  (∀ p ∈ st.registry, p.2.proc ∈ st.alive) ∧
  (∀ q ∈ st.alive, q < st.nextId)

/-- The empty supervisor state. -/
def emptySup : SupState := ⟨[], [], 0, 0⟩

/-- An oracle whose first handshake step times out with raw diagnostics. -/
def failOracle : HandshakeOracle :=
  ⟨.error ("Stockfish command timed out: uci"), .ok ("readyok"), .ok ("readyok")⟩

/-- An oracle for a fully successful handshake. -/
def okOracle : HandshakeOracle := ⟨.ok ("uciok"), .ok ("readyok"), .ok ("readyok")⟩

/-! ## Game service (gameService.js)

The chess.js rules engine is an external collaborator; it is modelled as a
record of functions over an abstract position type. `analyzePosition`
(the transient deep-analysis engine call) is modelled as an oracle from a
FEN string to a result or an error. -/

/-- The side to move, as reported by `chess.turn()`. -/
inductive Color where
  | w
  | b
deriving DecidableEq, Repr

/-- String interpolation of a turn color. -/
def colorChar : Color → String
  | .w => "w"
  | .b => "b"

/-- The rules-engine interface consumed from chess.js. -/
structure RulesEngine (Pos : Type) where
  turn : Pos → Color
  move : Pos → String → Option Pos
  isGameOver : Pos → Bool
  isCheckmate : Pos → Bool
  isDraw : Pos → Bool
  fen : Pos → String
  pgn : Pos → String

/-- The result of one `analyzePosition` call. -/
structure PosAnalysis where
  evaluation : Evaluation
  bestMove : Option String
  principalVariation : String
deriving DecidableEq, Repr

/-- One element of the analysis array pushed per ply by analyzeGame. -/
structure AnalysisEntry where
  moveNumber : Nat
  color : String
  move : String
  fen : String
  evaluation : Evaluation
  bestMove : Option String
  isMistake : Bool
  isBlunder : Bool
  comment : String
deriving DecidableEq, Repr

/-- The persisted game document (players.white and players.black flattened). -/
structure GameDoc where
  gameId : String
  playersWhite : String
  playersBlack : String
  fen : String
  pgn : String
  moves : List String
  status : String
  result : String
  analysis : List AnalysisEntry
deriving DecidableEq, Repr

variable {Pos : Type}

/-- The loop state of analyzeGame at the start of iteration `i`: the current
chess position, the carried baseline analysis, and the entries so far. -/
structure LoopState (Pos : Type) where
  i : Nat
  pos : Pos
  currentAnalysis : PosAnalysis
  acc : List AnalysisEntry
deriving DecidableEq, Repr

/-- Outcome of one iteration of the analyzeGame loop: an analysis-engine
error propagates, an illegal replay breaks the loop, otherwise the loop
continues with the next state. -/
inductive StepOutcome (Pos : Type) where
  | fail (msg : String)
  | brk
  | next (s : LoopState Pos)
deriving DecidableEq

/--
One iteration of the analyzeGame loop (gameService.js lines 266-367):
record the pre-move baseline, apply the move (break on an illegal replay),
synthesize the post-move evaluation for game-over positions (mate 0 for
checkmate, cp 0 for a draw) or call the analysis oracle, classify the ply
when the mover is the human, and append one AnalysisEntry.
-/
def loopStep (R : RulesEngine Pos) (analyze : String → Except String PosAnalysis)
    (whitePlayer blackPlayer : String) (s : LoopState Pos) (moveSan : String) :
    StepOutcome Pos :=
  let turnColor := R.turn s.pos
  let isWhiteTurn := turnColor == Color.w
  let isHumanMove := (isWhiteTurn && whitePlayer == "Human") ||
                     (!isWhiteTurn && blackPlayer == "Human")
  let bestMoveStart := s.currentAnalysis.bestMove
  let evalStart := s.currentAnalysis.evaluation
  match R.move s.pos moveSan with
  | none => .brk
  | some pos2 =>
    let fenAfterMove := R.fen pos2
    let next : Except String (Evaluation × PosAnalysis) :=
      if R.isGameOver pos2 then
        let evalAfter : Evaluation :=
          if R.isCheckmate pos2 then ⟨EvalType.mate, 0⟩ else ⟨EvalType.cp, 0⟩
        .ok (evalAfter, ⟨evalAfter, none, ""⟩)
      else
        match analyze fenAfterMove with
        | .error e => .error e
        | .ok nextAnalysis => .ok (nextAnalysis.evaluation, nextAnalysis)
    match next with
    | .error e => .fail e
    | .ok (evalAfter, nextAnalysis) =>
      let q := if isHumanMove then classifyHumanMove evalStart evalAfter bestMoveStart
               else ⟨false, false, ""⟩
      let entry : AnalysisEntry :=
        { moveNumber := s.i / 2 + 1,
          color := if isWhiteTurn then "white" else "black",
          move := moveSan,
          fen := fenAfterMove,
          evaluation := evalStart,
          bestMove := bestMoveStart,
          isMistake := q.isMistake,
          isBlunder := q.isBlunder,
          comment := q.comment }
      .next ⟨s.i + 1, pos2, nextAnalysis, s.acc ++ [entry]⟩

/-- The analyzeGame loop over the recorded move list. -/
def analyzeLoop (R : RulesEngine Pos) (analyze : String → Except String PosAnalysis)
    (whitePlayer blackPlayer : String) :
    LoopState Pos → List String → Except String (List AnalysisEntry)
  | s, [] => .ok s.acc
  | s, moveSan :: rest =>
    match loopStep R analyze whitePlayer blackPlayer s moveSan with
    | .fail e => .error e
    | .brk => .ok s.acc
    | .next s2 => analyzeLoop R analyze whitePlayer blackPlayer s2 rest

/-- Runs the loop over a move prefix, returning the reached state only when
every iteration continued normally (no break, no error). -/
def stepsAll (R : RulesEngine Pos) (analyze : String → Except String PosAnalysis)
    (whitePlayer blackPlayer : String) :
    LoopState Pos → List String → Option (LoopState Pos)
  | s, [] => some s
  | s, moveSan :: rest =>
    match loopStep R analyze whitePlayer blackPlayer s moveSan with
    | .next s2 => stepsAll R analyze whitePlayer blackPlayer s2 rest
    | _ => none

/--
`analyzeGame` from gameService.js: reject an unfinished game, return an
existing analysis unchanged, otherwise obtain the baseline evaluation of the
initial position, replay the move list through the loop, and persist the
produced entries with status set back to "finished" (the final
`findByIdAndUpdate`). The intermediate "analyzing" status write has no
bearing on the returned document and is not tracked.
-/
def analyzeGame (R : RulesEngine Pos) (initPos : Pos)
    (analyze : String → Except String PosAnalysis) (doc : GameDoc) :
    Except String GameDoc :=
  if doc.status ≠ "finished" then .error ("Game is not finished and cannot be analyzed.")
  else if 0 < doc.analysis.length then .ok doc
  else
    match analyze (R.fen initPos) with
    | .error e => .error e
    | .ok currentAnalysis =>
      match analyzeLoop R analyze doc.playersWhite doc.playersBlack
          ⟨0, initPos, currentAnalysis, []⟩ doc.moves with
      | .error e => .error e
      | .ok analysisResults =>
        .ok { doc with analysis := analysisResults, status := "finished" }

/-- In-memory entry of the activeGames map. -/
structure ActiveGame (Pos : Type) where
  pos : Pos
  white : String
  black : String
  difficulty : Nat

/-- The success payload returned by makeMove. -/
structure MakeMoveResult where
  aiMove : Option String
  status : String
deriving DecidableEq, Repr

/--
`makeMove` from gameService.js, over the activeGames entry and the stored
document for the gameId. The `best` oracle stands for
`stockfishService.getBestMove`; its `none` result models a falsy bestmove.
The returned document reflects what is persisted: it changes only when the
single `gameDoc.save()` on the success path runs, while the in-memory
position advances as soon as a move is applied.
-/
def makeMove (R : RulesEngine Pos) (best : Pos → Except String (Option String)) :
    Option (ActiveGame Pos) → Option GameDoc → String →
    Option (ActiveGame Pos) × Option GameDoc × Except String MakeMoveResult
  | none, doc?, _ => (none, doc?, .error ("Game not found or has ended."))
  | some ag, none, _ => (some ag, none, .error ("Game is not active or has ended."))
  | some ag, some doc, mv =>
    if doc.status ≠ "playing" then
      (some ag, some doc, .error ("Game is not active or has ended."))
    else
      let humanPlayerColor := if ag.white == "Human" then Color.w else Color.b
      if humanPlayerColor ≠ R.turn ag.pos then
        (some ag, some doc,
         .error ("It\x27s not the human\x27s turn. Current turn: " ++ colorChar (R.turn ag.pos)))
      else
        match R.move ag.pos mv with
        | none => (some ag, some doc, .error ("Invalid move."))
        | some pos1 =>
          let doc1 := { doc with
            moves := doc.moves ++ [mv]
            fen := R.fen pos1
            pgn := R.pgn pos1 }
          if R.isGameOver pos1 then
            let gameResult :=
              if R.isCheckmate pos1 then (if R.turn pos1 == Color.w then "0-1" else "1-0")
              else if R.isDraw pos1 then "1/2-1/2" else "*"
            (none, some { doc1 with status := "finished", result := gameResult },
             .ok ⟨none, "finished"⟩)
          else
            if (ag.white == "Computer" && R.turn pos1 == Color.w) ||
               (ag.black == "Computer" && R.turn pos1 == Color.b) then
              match best pos1 with
              | .error e => (some { ag with pos := pos1 }, some doc, .error e)
              | .ok none =>
                (some { ag with pos := pos1 }, some doc, .error ("AI failed to make a move."))
              | .ok (some computerMove) =>
                match R.move pos1 computerMove with
                | none =>
                  (some { ag with pos := pos1 }, some doc,
                   .error ("AI generated an invalid move."))
                | some pos2 =>
                  let doc2 := { doc1 with
                    moves := doc1.moves ++ [computerMove]
                    fen := R.fen pos2
                    pgn := R.pgn pos2 }
                  if R.isGameOver pos2 then
                    let gameResult :=
                      if R.isCheckmate pos2 then (if R.turn pos2 == Color.w then "0-1" else "1-0")
                      else if R.isDraw pos2 then "1/2-1/2" else "*"
                    (none, some { doc2 with status := "finished", result := gameResult },
                     .ok ⟨some computerMove, "finished"⟩)
                  else
                    (some { ag with pos := pos2 }, some doc2,
                     .ok ⟨some computerMove, "playing"⟩)
            else
              (some { ag with pos := pos1 }, some doc1, .ok ⟨none, "playing"⟩)

/-! ## Concrete instances for counterexamples and witnesses -/

/-- A rules engine over positions 0 and 1 where only "e2e4" applies at 0. -/
def cexEngine : RulesEngine Nat :=
  { turn := fun p => if p % 2 == 0 then Color.w else Color.b,
    move := fun p m => if p == 0 && m == "e2e4" then some 1 else none,
    isGameOver := fun _ => false,
    isCheckmate := fun _ => false,
    isDraw := fun _ => false,
    fen := fun p => "fen" ++ toString p,
    pgn := fun _ => "" }

/-- An analysis oracle that always reports cp 10 with best move e2e4. -/
def cexAnalyze : String → Except String PosAnalysis :=
  fun _ => .ok ⟨⟨EvalType.cp, 10⟩, some ("e2e4"), ""⟩

/-- A finished two-move game whose second recorded move is corrupt. -/
def cexDoc : GameDoc :=
  { gameId := "g1", playersWhite := "Human", playersBlack := "Computer", fen := "", pgn := "",
    moves := ["e2e4", "zzzz"], status := "finished", result := "1-0", analysis := [] }

/-- The entry analyzeGame produces for the first ply of `cexDoc`. -/
def cexEntry : AnalysisEntry :=
  ⟨1, "white", "e2e4", "fen1", ⟨EvalType.cp, 10⟩, some ("e2e4"), false, false, ""⟩

/-- The loop state after the first ply of `cexDoc`. -/
def cexMidState : LoopState Nat :=
  ⟨1, 1, ⟨⟨EvalType.cp, 10⟩, some ("e2e4"), ""⟩, [cexEntry]⟩

/-- A rules engine where "h5h7" moves position 0 into checkmate position 1. -/
def mateEngine : RulesEngine Nat :=
  { turn := fun p => if p == 0 then Color.w else Color.b,
    move := fun p m => if p == 0 && m == "h5h7" then some 1 else none,
    isGameOver := fun p => p == 1,
    isCheckmate := fun p => p == 1,
    isDraw := fun _ => false,
    fen := fun p => "fen" ++ toString p,
    pgn := fun _ => "" }

/-- An analysis oracle reporting a pre-move advantage of cp 10500. -/
def mateAnalyze : String → Except String PosAnalysis :=
  fun _ => .ok ⟨⟨EvalType.cp, 10500⟩, some ("h5h6"), ""⟩

/-- An analysis oracle reporting a pre-move advantage of cp 450. -/
def mateAnalyze2 : String → Except String PosAnalysis :=
  fun _ => .ok ⟨⟨EvalType.cp, 450⟩, some ("h5h6"), ""⟩

/-- A finished one-move game ending in checkmate by the human. -/
def mateDoc : GameDoc :=
  { gameId := "g2", playersWhite := "Human", playersBlack := "Computer", fen := "", pgn := "",
    moves := ["h5h7"], status := "finished", result := "1-0", analysis := [] }

/-- The entry analyzeGame produces for the checkmate ply of `mateDoc`. -/
def mateEntry : AnalysisEntry :=
  ⟨1, "white", "h5h7", "fen1", ⟨EvalType.cp, 10500⟩, some ("h5h6"), false, true,
   "Blunder. You lost significant advantage. Best was h5h6."⟩

/-- A rules engine where white (the computer) is always to move. -/
def wEngine : RulesEngine Nat :=
  { turn := fun _ => Color.w, move := fun _ _ => none, isGameOver := fun _ => false,
    isCheckmate := fun _ => false, isDraw := fun _ => false,
    fen := fun _ => "f", pgn := fun _ => "" }

/-- An active game where the human plays black. -/
def wActive : ActiveGame Nat := ⟨0, "Computer", "Human", 3⟩

/-- The stored document for `wActive`. -/
def wDoc : GameDoc :=
  { gameId := "g3", playersWhite := "Computer", playersBlack := "Human", fen := "", pgn := "",
    moves := [], status := "playing", result := "*", analysis := [] }

/-! ## Theorems about getCpValue and classification -/

theorem getCpValue_cp (c : Int) : getCpValue ⟨EvalType.cp, c⟩ = c := rfl

theorem getCpValue_mate_formula (v : Int) :
    getCpValue ⟨EvalType.mate, v⟩ = Int.sign v * (MATE_VALUE - |v|) := by
  unfold getCpValue
  by_cases h : v = 0
  · subst h; simp
  · simp [h]

theorem abs_getCpValue_mate (v : Int) (h : v ≠ 0) (h2 : |v| ≤ MATE_VALUE) :
    |getCpValue ⟨EvalType.mate, v⟩| = MATE_VALUE - |v| := by
  rw [getCpValue_mate_formula, abs_mul]
  have hs : |Int.sign v| = 1 := by
    rcases lt_trichotomy v 0 with hv | hv | hv
    · rw [Int.sign_eq_neg_one_iff_neg.mpr hv]; rfl
    · exact absurd hv h
    · rw [Int.sign_eq_one_iff_pos.mpr hv]; rfl
  rw [hs, one_mul, abs_of_nonneg]
  omega

/--
C3 (amended): `getCpValue` maps a mate evaluation to sign times
(MATE_VALUE minus the move count); for two mate evaluations of the same sign
whose move counts are nonzero and at most MATE_VALUE, the smaller count has
the strictly larger magnitude; and a mate evaluation's magnitude exceeds a
centipawn evaluation's magnitude whenever the centipawn magnitude is below
MATE_VALUE minus the mate move count.
-/
theorem getCpValue_mate_scale :
    (∀ v : Int, getCpValue ⟨EvalType.mate, v⟩ = Int.sign v * (MATE_VALUE - |v|)) ∧
    (∀ v₁ v₂ : Int, Int.sign v₁ = Int.sign v₂ → 0 < |v₁| → |v₁| < |v₂| → |v₂| ≤ MATE_VALUE →
      |getCpValue ⟨EvalType.mate, v₂⟩| < |getCpValue ⟨EvalType.mate, v₁⟩|) ∧
    (∀ v c : Int, 0 < |v| → |c| < MATE_VALUE - |v| →
      |getCpValue ⟨EvalType.cp, c⟩| < |getCpValue ⟨EvalType.mate, v⟩|) := by
  refine ⟨getCpValue_mate_formula, ?_, ?_⟩
  · intro v₁ v₂ hsign h1 h12 h2
    rw [abs_getCpValue_mate v₁ (by intro hv; rw [hv] at h1; simp at h1) (by omega),
      abs_getCpValue_mate v₂ (by intro hv; rw [hv] at h12; simp at h12; omega) h2]
    omega
  · intro v c hv hc
    have hcnn := abs_nonneg c
    rw [getCpValue_cp, abs_getCpValue_mate v (by intro h0; rw [h0] at hv; simp at hv)
      (by omega)]
    omega

/--
Witness for C3: concrete instances of the three parts of
`getCpValue_mate_scale` (mate in 1 versus mate in 3, and mate in 2 versus a
200-centipawn score).
-/
theorem getCpValue_mate_scale_witness :
    getCpValue ⟨EvalType.mate, 3⟩ = Int.sign 3 * (MATE_VALUE - |(3 : Int)|) ∧
    |getCpValue ⟨EvalType.mate, 3⟩| < |getCpValue ⟨EvalType.mate, 1⟩| ∧
    |getCpValue ⟨EvalType.cp, 200⟩| < |getCpValue ⟨EvalType.mate, 2⟩| :=
  ⟨getCpValue_mate_scale.1 3,
   getCpValue_mate_scale.2.1 1 3 (by decide) (by decide) (by decide) (by decide),
   getCpValue_mate_scale.2.2 2 200 (by decide) (by decide)⟩

/--
C3 counterexample: the claim as stated fails for unbounded values — a
10000-centipawn evaluation has magnitude strictly greater than the mate-in-1
evaluation (9999), so a mate evaluation's magnitude does not exceed every
finite centipawn evaluation's magnitude.
-/
theorem mate_vs_cp_magnitude_cex :
    |getCpValue ⟨EvalType.mate, 1⟩| < |getCpValue ⟨EvalType.cp, 10000⟩| := by decide

/--
C4: for a human ply whose post-move evaluation is not the synthesized
checkmate value (mate 0), the classification drop is the pre-move advantage
minus the sign-flipped post-move advantage, the blunder flag is set exactly
when the drop exceeds 300, and — absent the missed-mate condition — the
mistake flag is set exactly when the drop is over 150 and at most 300.
-/
theorem classify_threshold_boundaries (evalStart evalAfter : Evaluation)
    (b : Option String) (hnm : ¬(evalAfter.type = EvalType.mate ∧ evalAfter.value = 0)) :
    ((classifyHumanMove evalStart evalAfter b).isBlunder = true ↔
      BLUNDER_THRESHOLD < getCpValue evalStart - (-1 * getCpValue evalAfter)) ∧
    (¬(evalStart.type = EvalType.mate ∧ evalAfter.type ≠ EvalType.mate) →
      ((classifyHumanMove evalStart evalAfter b).isMistake = true ↔
        (MISTAKE_THRESHOLD < getCpValue evalStart - (-1 * getCpValue evalAfter) ∧
         getCpValue evalStart - (-1 * getCpValue evalAfter) ≤ BLUNDER_THRESHOLD))) := by
  have hd : evalDiffOf evalStart evalAfter =
      getCpValue evalStart - (-1 * getCpValue evalAfter) := by
    unfold evalDiffOf cpActualResultOf
    rw [if_neg hnm]
  unfold classifyHumanMove
  rw [hd]
  by_cases hb : getCpValue evalStart - (-1 * getCpValue evalAfter) > BLUNDER_THRESHOLD
  · rw [if_pos hb]
    exact ⟨by simp; omega, fun _ => by simp; omega⟩
  · rw [if_neg hb]
    by_cases hm : getCpValue evalStart - (-1 * getCpValue evalAfter) > MISTAKE_THRESHOLD
    · rw [if_pos hm]
      exact ⟨by simp; omega, fun _ => by simp; omega⟩
    · rw [if_neg hm]
      refine ⟨by split <;> simp <;> omega, fun hmm => ?_⟩
      rw [if_neg hmm]
      constructor
      · intro h
        simp at h
      · intro h
        exact absurd h.1 (by omega)

/--
Witness for C4: the spec's boundary example — pre-move advantage +120,
post-move (opponent viewpoint) +420, drop 540 — is flagged as a blunder,
and a drop of exactly 150 (pre 100, post-move opponent viewpoint −(-50)=50,
drop 150) flags neither mistake nor blunder.
-/
theorem classify_threshold_boundaries_witness :
    ¬((⟨EvalType.cp, 420⟩ : Evaluation).type = EvalType.mate ∧
       (⟨EvalType.cp, 420⟩ : Evaluation).value = 0) ∧
    ((classifyHumanMove ⟨EvalType.cp, 120⟩ ⟨EvalType.cp, 420⟩ none).isBlunder = true ↔
      BLUNDER_THRESHOLD <
        getCpValue ⟨EvalType.cp, 120⟩ - (-1 * getCpValue ⟨EvalType.cp, 420⟩)) :=
  ⟨by decide, (classify_threshold_boundaries ⟨EvalType.cp, 120⟩ ⟨EvalType.cp, 420⟩
    none (by decide)).1⟩

/--
C5 counterexample: pre-move mate in 1, post-move a finite centipawn score of
−300 for the opponent (drop 9699 > 300): the ply is classified a blunder and
the mistake flag is false, contradicting the claim that a missed mate is
classified as a mistake regardless of the numeric drop magnitude.
-/
theorem missed_mate_big_drop_cex :
    (classifyHumanMove ⟨EvalType.mate, 1⟩ ⟨EvalType.cp, -300⟩ none).isMistake = false ∧
    (classifyHumanMove ⟨EvalType.mate, 1⟩ ⟨EvalType.cp, -300⟩ none).isBlunder = true := by
  decide

/--
C5 (amended): a human ply whose pre-move evaluation is a forced mate and whose
post-move evaluation is no longer a mate is classified as a mistake whenever
the drop does not exceed the blunder threshold — in particular even when the
drop alone would not cross the mistake threshold; when the drop exceeds the
blunder threshold the ply is classified as a blunder instead.
-/
theorem missed_mate_mistake (evalStart evalAfter : Evaluation) (b : Option String)
    (hpre : evalStart.type = EvalType.mate) (hpost : evalAfter.type ≠ EvalType.mate)
    (hdrop : getCpValue evalStart - cpActualResultOf evalAfter ≤ BLUNDER_THRESHOLD) :
    (classifyHumanMove evalStart evalAfter b).isMistake = true ∧
    (classifyHumanMove evalStart evalAfter b).isBlunder = false := by
  have hnb : ¬(evalDiffOf evalStart evalAfter > BLUNDER_THRESHOLD) := by
    unfold evalDiffOf
    omega
  unfold classifyHumanMove
  rw [if_neg hnb]
  by_cases hm : evalDiffOf evalStart evalAfter > MISTAKE_THRESHOLD
  · rw [if_pos hm]
    exact ⟨rfl, rfl⟩
  · rw [if_neg hm, if_pos ⟨hpre, hpost⟩]
    exact ⟨rfl, rfl⟩

/--
Witness for C5: pre-move mate in 3 (score 9997), post-move centipawn −9900 for
the opponent (mover-viewpoint 9900), drop 97 — below even the mistake
threshold, yet flagged as a mistake.
-/
theorem missed_mate_mistake_witness :
    getCpValue ⟨EvalType.mate, 3⟩ - cpActualResultOf ⟨EvalType.cp, -9900⟩ ≤ BLUNDER_THRESHOLD ∧
    (classifyHumanMove ⟨EvalType.mate, 3⟩ ⟨EvalType.cp, -9900⟩ (some ("d7d8"))).isMistake = true :=
  ⟨by decide,
   (missed_mate_mistake ⟨EvalType.mate, 3⟩ ⟨EvalType.cp, -9900⟩ (some ("d7d8"))
     rfl (by decide) (by decide)).1⟩

/-! ## Registry association-list lemmas -/

theorem lookupGame_mem {g : String} {e : EngineEntry} :
    ∀ {reg : List (String × EngineEntry)}, lookupGame g reg = some e → (g, e) ∈ reg := by
  intro reg
  induction reg with
  | nil => intro h; simp [lookupGame] at h
  | cons q rest ih =>
    obtain ⟨k, e0⟩ := q
    intro h
    simp only [lookupGame] at h
    by_cases hq : k = g
    · rw [if_pos hq] at h
      injection h with h
      subst hq
      subst h
      exact List.mem_cons_self _ _
    · rw [if_neg hq] at h
      exact List.mem_cons_of_mem _ (ih h)

theorem eraseGame_sublist (g : String) (reg : List (String × EngineEntry)) :
    (eraseGame g reg).Sublist reg := by
  induction reg with
  | nil => exact List.Sublist.refl _
  | cons q rest ih =>
    obtain ⟨k, e0⟩ := q
    simp only [eraseGame]
    by_cases hq : k = g
    · rw [if_pos hq]
      exact List.Sublist.cons _ ih
    · rw [if_neg hq]
      exact List.Sublist.cons₂ _ ih

theorem mem_eraseGame {p : String × EngineEntry} {g : String}
    {reg : List (String × EngineEntry)} (h : p ∈ eraseGame g reg) : p ∈ reg ∧ p.1 ≠ g := by
  induction reg with
  | nil => simp [eraseGame] at h
  | cons q rest ih =>
    obtain ⟨k, e0⟩ := q
    simp only [eraseGame] at h
    by_cases hq : k = g
    · rw [if_pos hq] at h
      exact ⟨List.mem_cons_of_mem _ (ih h).1, (ih h).2⟩
    · rw [if_neg hq] at h
      rcases List.mem_cons.mp h with h | h
      · refine ⟨List.mem_cons.mpr (Or.inl h), ?_⟩
        rw [h]
        exact hq
      · exact ⟨List.mem_cons_of_mem _ (ih h).1, (ih h).2⟩

theorem lookupGame_eraseGame_self (g : String) (reg : List (String × EngineEntry)) :
    lookupGame g (eraseGame g reg) = none := by
  induction reg with
  | nil => rfl
  | cons q rest ih =>
    obtain ⟨k, e0⟩ := q
    simp only [eraseGame]
    by_cases hq : k = g
    · rw [if_pos hq]
      exact ih
    · rw [if_neg hq]
      simp only [lookupGame]
      rw [if_neg hq]
      exact ih

theorem lookupGame_setGame_self (g : String) (e : EngineEntry)
    (reg : List (String × EngineEntry)) : lookupGame g (setGame g e reg) = some e := by
  induction reg with
  | nil => simp [setGame, lookupGame]
  | cons q rest ih =>
    obtain ⟨k, e0⟩ := q
    simp only [setGame]
    by_cases hq : k = g
    · rw [if_pos hq]
      simp [lookupGame]
    · rw [if_neg hq]
      simp only [lookupGame]
      rw [if_neg hq]
      exact ih

theorem mem_setGame {p : String × EngineEntry} {g : String} {e : EngineEntry}
    {reg : List (String × EngineEntry)} (h : p ∈ setGame g e reg) :
    p = (g, e) ∨ p ∈ reg := by
  induction reg with
  | nil =>
    simp [setGame] at h
    exact Or.inl h
  | cons q rest ih =>
    obtain ⟨k, e0⟩ := q
    simp only [setGame] at h
    by_cases hq : k = g
    · rw [if_pos hq] at h
      rcases List.mem_cons.mp h with h | h
      · exact Or.inl h
      · exact Or.inr (List.mem_cons_of_mem _ h)
    · rw [if_neg hq] at h
      rcases List.mem_cons.mp h with h | h
      · exact Or.inr (List.mem_cons.mpr (Or.inl h))
      · rcases ih h with h | h
        · exact Or.inl h
        · exact Or.inr (List.mem_cons_of_mem _ h)

theorem mem_keys_setGame {k : String} {g : String} {e : EngineEntry}
    {reg : List (String × EngineEntry)} (h : k ∈ (setGame g e reg).map Prod.fst) :
    k = g ∨ k ∈ reg.map Prod.fst := by
  rcases List.mem_map.mp h with ⟨p, hp, hk⟩
  rcases mem_setGame hp with h1 | h1
  · left
    rw [← hk, h1]
  · right
    exact List.mem_map.mpr ⟨p, h1, hk⟩

theorem nodup_keys_setGame (g : String) (e : EngineEntry)
    {reg : List (String × EngineEntry)} (hn : (reg.map Prod.fst).Nodup) :
    ((setGame g e reg).map Prod.fst).Nodup := by
  induction reg with
  | nil => simp [setGame]
  | cons q rest ih =>
    obtain ⟨k, e0⟩ := q
    simp only [List.map_cons] at hn
    rcases List.nodup_cons.mp hn with ⟨hq1, hq2⟩
    simp only [setGame]
    by_cases hq : k = g
    · rw [if_pos hq]
      simp only [List.map_cons]
      rw [hq] at hq1
      exact List.nodup_cons.mpr ⟨hq1, hq2⟩
    · rw [if_neg hq]
      simp only [List.map_cons]
      refine List.nodup_cons.mpr ⟨?_, ih hq2⟩
      intro hmem
      rcases mem_keys_setGame hmem with h | h
      · exact hq h
      · exact hq1 h

theorem mem_procs_setGame {x : Nat} {g : String} {e : EngineEntry}
    {reg : List (String × EngineEntry)}
    (h : x ∈ (setGame g e reg).map (fun p => p.2.proc)) :
    x = e.proc ∨ x ∈ reg.map (fun p => p.2.proc) := by
  rcases List.mem_map.mp h with ⟨p, hp, hk⟩
  rcases mem_setGame hp with h1 | h1
  · left
    rw [← hk, h1]
  · right
    exact List.mem_map.mpr ⟨p, h1, hk⟩

theorem nodup_procs_setGame (g : String) (e : EngineEntry)
    {reg : List (String × EngineEntry)}
    (hn : (reg.map (fun p => p.2.proc)).Nodup)
    (hf : e.proc ∉ reg.map (fun p => p.2.proc)) :
    ((setGame g e reg).map (fun p => p.2.proc)).Nodup := by
  induction reg with
  | nil => simp [setGame]
  | cons q rest ih =>
    obtain ⟨k, e0⟩ := q
    simp only [List.map_cons] at hn hf
    rcases List.nodup_cons.mp hn with ⟨hq1, hq2⟩
    have hf2 : e.proc ∉ rest.map (fun p => p.2.proc) := by
      intro hmem
      exact hf (List.mem_cons_of_mem _ hmem)
    simp only [setGame]
    by_cases hq : k = g
    · rw [if_pos hq]
      simp only [List.map_cons]
      exact List.nodup_cons.mpr ⟨hf2, hq2⟩
    · rw [if_neg hq]
      simp only [List.map_cons]
      refine List.nodup_cons.mpr ⟨?_, ih hq2 hf2⟩
      intro hmem
      rcases mem_procs_setGame hmem with h | h
      · exact hf (by rw [← h]; exact List.mem_cons_self _ _)
      · exact hq1 h

/-! ## Supervisor lemmas -/

theorem terminateEngine_nextId (g : String) (st : SupState) :
    (terminateEngine g st).nextId = st.nextId := by
  unfold terminateEngine
  cases lookupGame g st.registry <;> rfl

theorem terminateEngine_spawnCount (g : String) (st : SupState) :
    (terminateEngine g st).spawnCount = st.spawnCount := by
  unfold terminateEngine
  cases lookupGame g st.registry <;> rfl

theorem terminateEngine_alive_sub (g : String) (st : SupState) :
    ∀ q ∈ (terminateEngine g st).alive, q ∈ st.alive := by
  unfold terminateEngine
  cases lookupGame g st.registry with
  | none => exact fun q hq => hq
  | some e => exact fun q hq => List.mem_of_mem_erase hq

theorem lookupGame_terminateEngine_self (g : String) (st : SupState) :
    lookupGame g (terminateEngine g st).registry = none := by
  unfold terminateEngine
  cases h : lookupGame g st.registry with
  | none => exact h
  | some e => exact lookupGame_eraseGame_self g st.registry

theorem terminateEngine_inv (g : String) (st : SupState) (hinv : SupInv st) :
    SupInv (terminateEngine g st) := by
  obtain ⟨h1, h2, h3, h4⟩ := hinv
  unfold terminateEngine
  cases h : lookupGame g st.registry with
  | none => exact ⟨h1, h2, h3, h4⟩
  | some e =>
    have hge : (g, e) ∈ st.registry := lookupGame_mem h
    refine ⟨?_, ?_, ?_, ?_⟩
    · exact ((eraseGame_sublist g st.registry).map Prod.fst).nodup h1
    · exact ((eraseGame_sublist g st.registry).map (fun p => p.2.proc)).nodup h2
    · intro p hp
      obtain ⟨hpr, hpne⟩ := mem_eraseGame hp
      have hne : p.2.proc ≠ e.proc := by
        intro heq
        have := List.inj_on_of_nodup_map h2 hpr hge heq
        exact hpne (by rw [this])
      exact (List.mem_erase_of_ne hne).mpr (h3 p hpr)
    · intro q hq
      exact h4 q (List.mem_of_mem_erase hq)

theorem preStartState_nextId (g : String) (st : SupState) :
    (preStartState g st).nextId = st.nextId := by
  unfold preStartState
  split
  · exact terminateEngine_nextId g st
  · rfl

theorem preStartState_spawnCount (g : String) (st : SupState) :
    (preStartState g st).spawnCount = st.spawnCount := by
  unfold preStartState
  split
  · exact terminateEngine_spawnCount g st
  · rfl

theorem preStartState_alive_sub (g : String) (st : SupState) :
    ∀ q ∈ (preStartState g st).alive, q ∈ st.alive := by
  unfold preStartState
  split
  · exact terminateEngine_alive_sub g st
  · exact fun q hq => hq

theorem preStartState_inv (g : String) (st : SupState) (hinv : SupInv st) :
    SupInv (preStartState g st) := by
  unfold preStartState
  split
  · exact terminateEngine_inv g st hinv
  · exact hinv

theorem preStartState_eq_terminate (g : String) (st : SupState)
    (h : (lookupGame g st.registry).isSome = true) :
    preStartState g st = terminateEngine g st := by
  unfold preStartState
  rw [if_pos h]

theorem lookupGame_spawnFor (g : String) (st : SupState) :
    lookupGame g (spawnFor g st).registry = some ⟨st.nextId, ""⟩ :=
  lookupGame_setGame_self g _ st.registry

theorem spawnFor_inv (g : String) (st : SupState) (hinv : SupInv st) :
    SupInv (spawnFor g st) := by
  obtain ⟨h1, h2, h3, h4⟩ := hinv
  have hfresh : st.nextId ∉ st.registry.map (fun p => p.2.proc) := by
    intro hmem
    rcases List.mem_map.mp hmem with ⟨p, hp, hproc⟩
    have := h4 _ (h3 p hp)
    omega
  simp only [SupInv, spawnFor]
  refine ⟨nodup_keys_setGame g _ h1, nodup_procs_setGame g _ h2 hfresh, ?_, ?_⟩
  · intro p hp
    rcases mem_setGame hp with h | h
    · rw [h]
      exact List.mem_cons_self _ _
    · exact List.mem_cons_of_mem _ (h3 p h)
  · intro q hq
    rcases List.mem_cons.mp hq with h | h
    · omega
    · have := h4 q h
      omega

theorem handshakeSteps_isOk_false (d : Nat) (o : HandshakeOracle)
    (h : exceptIsOk (getStockfishOptionsForDifficulty d) = false) :
    exceptIsOk (handshakeSteps d o) = false := by
  unfold handshakeSteps
  cases o.uci with
  | error e => rfl
  | ok s =>
    cases hg : getStockfishOptionsForDifficulty d with
    | error e => rfl
    | ok c =>
      rw [hg] at h
      simp [exceptIsOk] at h

theorem initializeEngine_failure_state (g : String) (d : Nat) (o : HandshakeOracle)
    (st : SupState) (hfresh : ∀ q ∈ st.alive, q < st.nextId)
    (hfail : exceptIsOk (handshakeSteps d o) = false) :
    lookupGame g (initializeEngine g d o st).1.registry = none ∧
    st.nextId ∉ (initializeEngine g d o st).1.alive ∧
    (initializeEngine g d o st).1.spawnCount = st.spawnCount + 1 ∧
    (initializeEngine g d o st).2 = Except.error ("Failed to initialize Stockfish engine.") := by
  unfold initializeEngine
  cases hs : handshakeSteps d o with
  | ok u =>
    rw [hs] at hfail
    simp [exceptIsOk] at hfail
  | error e =>
    have hlook : lookupGame g (spawnFor g (preStartState g st)).registry =
        some ⟨(preStartState g st).nextId, ""⟩ :=
      lookupGame_setGame_self g _ (preStartState g st).registry
    refine ⟨lookupGame_terminateEngine_self g _, ?_, ?_, rfl⟩
    · show st.nextId ∉ (terminateEngine g (spawnFor g (preStartState g st))).alive
      unfold terminateEngine
      rw [hlook]
      show st.nextId ∉
        (((preStartState g st).nextId :: (preStartState g st).alive).erase
          (preStartState g st).nextId)
      rw [List.erase_cons_head]
      intro hmem
      have h1 := preStartState_alive_sub g st _ hmem
      have h2 := hfresh _ h1
      omega
    · show (terminateEngine g (spawnFor g (preStartState g st))).spawnCount = st.spawnCount + 1
      rw [terminateEngine_spawnCount]
      show (preStartState g st).spawnCount + 1 = st.spawnCount + 1
      rw [preStartState_spawnCount]

theorem initializeEngine_ok_state (g : String) (d : Nat) (o : HandshakeOracle)
    (st : SupState) (hok : exceptIsOk (initializeEngine g d o st).2 = true) :
    (initializeEngine g d o st).1 = spawnFor g (preStartState g st) := by
  cases hs : handshakeSteps d o with
  | ok u =>
    unfold initializeEngine
    rw [hs]
  | error e =>
    unfold initializeEngine at hok
    rw [hs] at hok
    simp [exceptIsOk] at hok

/-! ## Claim theorems for the supervisor -/

/--
C7 counterexample: the move-time budget is not non-decreasing in the
difficulty level — level 1 has movetime 1000 while level 2 has movetime 100.
-/
theorem movetime_not_monotone_cex :
    (lookupLevel 1).map (fun c => c.movetime) = some 1000 ∧
    (lookupLevel 2).map (fun c => c.movetime) = some 100 ∧ (100 : Nat) < 1000 := by
  decide

/--
C7 (amended): across adjacent levels of the fixed difficulty table, the skill
parameter, target rating, draw-avoidance bias and depth ceiling are
non-decreasing over levels 1 through 10; the move-time budget is
non-decreasing only from level 2 through 10 (level 1 is an outlier at
1000 ms).
-/
theorem difficulty_table_monotone :
    ∀ l : Nat, l < 10 →
      (1 ≤ l →
        levelSkill l ≤ levelSkill (l + 1) ∧
        levelElo l ≤ levelElo (l + 1) ∧
        levelContempt l ≤ levelContempt (l + 1) ∧
        levelDepth l ≤ levelDepth (l + 1)) ∧
      (2 ≤ l → levelMovetime l ≤ levelMovetime (l + 1)) := by
  decide

/--
Witness for C7: the amended monotonicity at the concrete adjacent pair of
levels 2 and 3.
-/
theorem difficulty_table_monotone_witness :
    levelSkill 2 ≤ levelSkill 3 ∧ levelElo 2 ≤ levelElo 3 ∧
    levelContempt 2 ≤ levelContempt 3 ∧ levelDepth 2 ≤ levelDepth 3 :=
  (difficulty_table_monotone 2 (by decide)).1 (by decide)

theorem lookupLevel_none_of_gt (level : Nat) (h : 10 < level) : lookupLevel level = none := by
  have hfind : stockfishDifficultyLevels.find? (fun p => p.1 == level) = none := by
    rw [List.find?_eq_none]
    intro p hp
    simp only [stockfishDifficultyLevels, List.mem_cons, List.not_mem_nil, or_false] at hp
    rcases hp with h1 | h1 | h1 | h1 | h1 | h1 | h1 | h1 | h1 | h1 <;> subst h1 <;>
      simp <;> omega
  unfold lookupLevel
  rw [hfind]
  rfl

theorem getOptions_invalid (level : Nat) (h : level = 0 ∨ 10 < level) :
    exceptIsOk (getStockfishOptionsForDifficulty level) = false := by
  have hnone : lookupLevel level = none := by
    rcases h with h | h
    · subst h
      decide
    · exact lookupLevel_none_of_gt level h
  unfold getStockfishOptionsForDifficulty
  rw [hnone]
  rfl

/--
C6 counterexample: starting an engine with the invalid difficulty level 0
does spawn a process — the difficulty lookup fails only after the spawn, so
the spawn counter increments from 0 to 1, contradicting the claim that no
engine process is spawned for a level outside 1 to 10.
-/
theorem invalid_difficulty_spawns_cex :
    exceptIsOk (getStockfishOptionsForDifficulty 0) = false ∧
    (initializeEngine ("g1") 0 okOracle emptySup).1.spawnCount = 1 ∧
    emptySup.spawnCount = 0 := by
  decide

/--
C6 (amended): each level 1 through 10 yields a non-empty configuration, and
any level outside 1 to 10 fails the lookup with a validation error; however,
engine startup with an invalid level spawns a process before the lookup
fails — the catch block then kills that process and removes the registry
entry, and the caller receives the generic initialization error.
-/
theorem difficulty_configuration_spec :
    (∀ level : Nat, level < 11 → 1 ≤ level →
      okNonEmpty (getStockfishOptionsForDifficulty level) = true) ∧
    (∀ level : Nat, level = 0 ∨ 10 < level →
      exceptIsOk (getStockfishOptionsForDifficulty level) = false) ∧
    (∀ (g : String) (level : Nat) (o : HandshakeOracle) (st : SupState),
      (level = 0 ∨ 10 < level) → (∀ q ∈ st.alive, q < st.nextId) →
      (initializeEngine g level o st).1.spawnCount = st.spawnCount + 1 ∧
      lookupGame g (initializeEngine g level o st).1.registry = none ∧
      st.nextId ∉ (initializeEngine g level o st).1.alive ∧
      (initializeEngine g level o st).2 =
        Except.error ("Failed to initialize Stockfish engine.")) := by
  refine ⟨by decide, getOptions_invalid, ?_⟩
  intro g level o st hlevel hfresh
  have hfail := handshakeSteps_isOk_false level o (getOptions_invalid level hlevel)
  obtain ⟨c1, c2, c3, c4⟩ := initializeEngine_failure_state g level o st hfresh hfail
  exact ⟨c3, c1, c2, c4⟩

/--
Witness for C6: level 5 yields a non-empty configuration, and starting with
level 0 from the empty state leaves no registry entry for the game.
-/
theorem difficulty_configuration_spec_witness :
    okNonEmpty (getStockfishOptionsForDifficulty 5) = true ∧
    lookupGame ("g1") (initializeEngine ("g1") 0 okOracle emptySup).1.registry = none :=
  ⟨difficulty_configuration_spec.1 5 (by decide) (by decide),
   (difficulty_configuration_spec.2.2 ("g1") 0 okOracle emptySup (Or.inl rfl)
     (fun q hq => absurd hq (List.not_mem_nil q))).2.1⟩

/--
C8: when any awaited handshake step fails, initializeEngine leaves no
registry entry for the gameId, the process spawned by this call is no longer
live (it was killed), and the caller receives exactly the fixed generic
message "Failed to initialize Stockfish engine." — a constant independent of
the oracle's raw diagnostic text.
-/
theorem initializeEngine_failure_cleanup (g : String) (d : Nat) (o : HandshakeOracle)
    (st : SupState) (hfresh : ∀ q ∈ st.alive, q < st.nextId)
    (hfail : exceptIsOk o.uci = false ∨ exceptIsOk o.isready1 = false ∨
      exceptIsOk o.isready2 = false) :
    lookupGame g (initializeEngine g d o st).1.registry = none ∧
    st.nextId ∉ (initializeEngine g d o st).1.alive ∧
    (initializeEngine g d o st).2 =
      Except.error ("Failed to initialize Stockfish engine.") := by
  have hsteps : exceptIsOk (handshakeSteps d o) = false := by
    unfold handshakeSteps
    cases hu : o.uci with
    | error e => rfl
    | ok s1 =>
      cases getStockfishOptionsForDifficulty d with
      | error e => rfl
      | ok c =>
        cases h1 : o.isready1 with
        | error e => rfl
        | ok s2 =>
          cases h2 : o.isready2 with
          | error e => rfl
          | ok s3 =>
            exfalso
            rcases hfail with h | h | h
            · rw [hu] at h
              simp [exceptIsOk] at h
            · rw [h1] at h
              simp [exceptIsOk] at h
            · rw [h2] at h
              simp [exceptIsOk] at h
  obtain ⟨c1, c2, c3, c4⟩ := initializeEngine_failure_state g d o st hfresh hsteps
  exact ⟨c1, c2, c4⟩

/--
Witness for C8: a handshake whose uci step times out, started from the empty
state, leaves no registry entry and yields the generic error.
-/
theorem initializeEngine_failure_cleanup_witness :
    exceptIsOk failOracle.uci = false ∧
    lookupGame ("g1") (initializeEngine ("g1") 5 failOracle emptySup).1.registry = none ∧
    (initializeEngine ("g1") 5 failOracle emptySup).2 =
      Except.error ("Failed to initialize Stockfish engine.") :=
  ⟨rfl,
   (initializeEngine_failure_cleanup ("g1") 5 failOracle emptySup
     (fun q hq => absurd hq (List.not_mem_nil q)) (Or.inl rfl)).1,
   (initializeEngine_failure_cleanup ("g1") 5 failOracle emptySup
     (fun q hq => absurd hq (List.not_mem_nil q)) (Or.inl rfl)).2.2⟩

/--
C9: the registry invariant (at most one session per gameId, distinct live
processes, registered processes live) is preserved by initializeEngine and
terminateEngine; terminateEngine leaves no entry for its gameId; and two
successive successful starts for the same gameId leave exactly the second
spawned process registered and live, the first having been killed.
-/
theorem engine_registry_invariant :
    (∀ (g : String) (d : Nat) (o : HandshakeOracle) (st : SupState),
      SupInv st → SupInv (initializeEngine g d o st).1) ∧
    (∀ (g : String) (st : SupState), SupInv st → SupInv (terminateEngine g st)) ∧
    (∀ (g : String) (st : SupState), lookupGame g (terminateEngine g st).registry = none) ∧
    (∀ (g : String) (d₁ d₂ : Nat) (o₁ o₂ : HandshakeOracle) (st : SupState), SupInv st →
      exceptIsOk (initializeEngine g d₁ o₁ st).2 = true →
      exceptIsOk (initializeEngine g d₂ o₂ (initializeEngine g d₁ o₁ st).1).2 = true →
      lookupGame g (initializeEngine g d₂ o₂ (initializeEngine g d₁ o₁ st).1).1.registry =
        some ⟨st.nextId + 1, ""⟩ ∧
      st.nextId + 1 ∈ (initializeEngine g d₂ o₂ (initializeEngine g d₁ o₁ st).1).1.alive ∧
      st.nextId ∉ (initializeEngine g d₂ o₂ (initializeEngine g d₁ o₁ st).1).1.alive) := by
  refine ⟨?_, ?_, ?_, ?_⟩
  · intro g d o st hinv
    unfold initializeEngine
    cases handshakeSteps d o with
    | ok u => exact spawnFor_inv g _ (preStartState_inv g st hinv)
    | error e => exact terminateEngine_inv g _ (spawnFor_inv g _ (preStartState_inv g st hinv))
  · intro g st hinv
    exact terminateEngine_inv g st hinv
  · intro g st
    exact lookupGame_terminateEngine_self g st
  · intro g d₁ d₂ o₁ o₂ st hinv h1 h2
    rw [initializeEngine_ok_state g d₁ o₁ st h1] at h2 ⊢
    rw [initializeEngine_ok_state g d₂ o₂ _ h2]
    have hlook : lookupGame g (spawnFor g (preStartState g st)).registry =
        some ⟨(preStartState g st).nextId, ""⟩ :=
      lookupGame_spawnFor g (preStartState g st)
    have hpre1 : preStartState g (spawnFor g (preStartState g st)) =
        terminateEngine g (spawnFor g (preStartState g st)) :=
      preStartState_eq_terminate g _ (by rw [hlook]; rfl)
    rw [hpre1]
    have hterm : terminateEngine g (spawnFor g (preStartState g st)) =
        { registry := eraseGame g (spawnFor g (preStartState g st)).registry,
          alive := (preStartState g st).alive,
          nextId := (preStartState g st).nextId + 1,
          spawnCount := (preStartState g st).spawnCount + 1 } := by
      unfold terminateEngine
      rw [hlook]
      show ({ registry := eraseGame g (spawnFor g (preStartState g st)).registry,
              alive := ((preStartState g st).nextId :: (preStartState g st).alive).erase
                (preStartState g st).nextId,
              nextId := (preStartState g st).nextId + 1,
              spawnCount := (preStartState g st).spawnCount + 1 } : SupState) = _
      rw [List.erase_cons_head]
    rw [hterm]
    have hnext : (preStartState g st).nextId = st.nextId := preStartState_nextId g st
    refine ⟨?_, ?_, ?_⟩
    · rw [lookupGame_spawnFor]
      simp [hnext]
    · simp only [spawnFor]
      rw [hnext]
      exact List.mem_cons_self _ _
    · simp only [spawnFor]
      rw [hnext]
      intro hmem
      rcases List.mem_cons.mp hmem with h | h
      · omega
      · have h3 := preStartState_alive_sub g st _ h
        have h4 := hinv.2.2.2 _ h3
        omega

/--
Witness for C9: from the empty state, two successive successful starts for
"g1" leave process 1 registered and live and process 0 dead.
-/
theorem engine_registry_invariant_witness :
    lookupGame ("g1")
      (initializeEngine ("g1") 4 okOracle
        (initializeEngine ("g1") 3 okOracle emptySup).1).1.registry = some ⟨1, ""⟩ ∧
    (0 : Nat) ∉ (initializeEngine ("g1") 4 okOracle
        (initializeEngine ("g1") 3 okOracle emptySup).1).1.alive :=
  ⟨(engine_registry_invariant.2.2.2 ("g1") 3 4 okOracle okOracle emptySup
      ⟨List.nodup_nil, List.nodup_nil,
        fun p hp => absurd hp (List.not_mem_nil p),
        fun q hq => absurd hq (List.not_mem_nil q)⟩ rfl rfl).1,
   (engine_registry_invariant.2.2.2 ("g1") 3 4 okOracle okOracle emptySup
      ⟨List.nodup_nil, List.nodup_nil,
        fun p hp => absurd hp (List.not_mem_nil p),
        fun q hq => absurd hq (List.not_mem_nil q)⟩ rfl rfl).2.2⟩

/-! ## Analysis-loop lemmas and claim theorems -/

theorem loopStep_brk (R : RulesEngine Pos) (analyze : String → Except String PosAnalysis)
    (wP bP : String) (s : LoopState Pos) (m : String)
    (hfail : R.move s.pos m = none) :
    loopStep R analyze wP bP s m = StepOutcome.brk := by
  unfold loopStep
  rw [hfail]

theorem analyzeLoop_brk (R : RulesEngine Pos) (analyze : String → Except String PosAnalysis)
    (wP bP : String) (s : LoopState Pos) (m : String) (rest : List String)
    (hfail : R.move s.pos m = none) :
    analyzeLoop R analyze wP bP s (m :: rest) = Except.ok s.acc := by
  simp only [analyzeLoop]
  rw [loopStep_brk R analyze wP bP s m hfail]

theorem analyzeLoop_append (R : RulesEngine Pos) (analyze : String → Except String PosAnalysis)
    (wP bP : String) (ms₁ ms₂ : List String) (s s2 : LoopState Pos)
    (h : stepsAll R analyze wP bP s ms₁ = some s2) :
    analyzeLoop R analyze wP bP s (ms₁ ++ ms₂) = analyzeLoop R analyze wP bP s2 ms₂ := by
  induction ms₁ generalizing s with
  | nil =>
    simp only [stepsAll] at h
    injection h with h
    subst h
    rfl
  | cons m rest ih =>
    simp only [stepsAll] at h
    rw [List.cons_append]
    simp only [analyzeLoop]
    cases hstep : loopStep R analyze wP bP s m with
    | fail e =>
      rw [hstep] at h
      exact Option.noConfusion h
    | brk =>
      rw [hstep] at h
      exact Option.noConfusion h
    | next s1 =>
      rw [hstep] at h
      exact ih s1 h

theorem analyzeGame_eq_loop (R : RulesEngine Pos) (initPos : Pos)
    (analyze : String → Except String PosAnalysis) (doc : GameDoc)
    (baseline : PosAnalysis)
    (hstatus : doc.status = "finished") (hempty : doc.analysis = [])
    (hbase : analyze (R.fen initPos) = .ok baseline) :
    analyzeGame R initPos analyze doc =
      match analyzeLoop R analyze doc.playersWhite doc.playersBlack
          ⟨0, initPos, baseline, []⟩ doc.moves with
      | .error e => .error e
      | .ok analysisResults =>
        .ok { doc with analysis := analysisResults, status := "finished" } := by
  unfold analyzeGame
  rw [if_neg (by simp [hstatus]), if_neg (by simp [hempty]), hbase]

/--
C1 counterexample: replaying `cexDoc` fails at its second recorded move, yet
analyzeGame returns successfully (no error is surfaced) with the game's
status set to "finished" and the first ply's entry persisted — the partially
analyzed game is indistinguishable from a fully analyzed one.
-/
theorem analyzeGame_illegal_replay_cex :
    analyzeGame cexEngine 0 cexAnalyze cexDoc =
      Except.ok { cexDoc with analysis := [cexEntry], status := "finished" } := by
  rfl

/--
C1 (amended): when a recorded move fails to replay at some ply, analyzeGame
stops the loop at that ply and persists exactly the entries produced for the
earlier plies — but it still sets the status back to "finished" and returns
successfully; the replay failure is only logged, never surfaced to the
caller.
-/
theorem analyzeGame_illegal_replay (R : RulesEngine Pos) (initPos : Pos)
    (analyze : String → Except String PosAnalysis) (doc : GameDoc)
    (baseline : PosAnalysis) (s : LoopState Pos) (ms₁ ms₂ : List String) (m : String)
    (hstatus : doc.status = "finished") (hempty : doc.analysis = [])
    (hmoves : doc.moves = ms₁ ++ m :: ms₂)
    (hbase : analyze (R.fen initPos) = .ok baseline)
    (hsteps : stepsAll R analyze doc.playersWhite doc.playersBlack
      ⟨0, initPos, baseline, []⟩ ms₁ = some s)
    (hfail : R.move s.pos m = none) :
    analyzeGame R initPos analyze doc =
      Except.ok { doc with analysis := s.acc, status := "finished" } := by
  rw [analyzeGame_eq_loop R initPos analyze doc baseline hstatus hempty hbase, hmoves]
  rw [analyzeLoop_append R analyze doc.playersWhite doc.playersBlack ms₁ (m :: ms₂)
    ⟨0, initPos, baseline, []⟩ s hsteps]
  rw [analyzeLoop_brk R analyze doc.playersWhite doc.playersBlack s m ms₂ hfail]

/--
Witness for C1: on `cexDoc` the second move fails to replay after one good
ply, and analyzeGame returns ok with that one entry and status "finished".
-/
theorem analyzeGame_illegal_replay_witness :
    cexEngine.move cexMidState.pos ("zzzz") = none ∧
    analyzeGame cexEngine 0 cexAnalyze cexDoc =
      Except.ok { cexDoc with analysis := cexMidState.acc, status := "finished" } :=
  ⟨rfl, analyzeGame_illegal_replay cexEngine 0 cexAnalyze cexDoc
    ⟨⟨EvalType.cp, 10⟩, some ("e2e4"), ""⟩ cexMidState ["e2e4"] [] ("zzzz")
    rfl rfl rfl rfl rfl rfl⟩

theorem classifyHumanMove_mate0 (e : Evaluation) (b : Option String)
    (h : getCpValue e ≤ 10150) :
    classifyHumanMove e ⟨EvalType.mate, 0⟩ b = ⟨false, false, ""⟩ := by
  have hd : evalDiffOf e ⟨EvalType.mate, 0⟩ = getCpValue e - 10000 := by
    unfold evalDiffOf cpActualResultOf
    rw [if_pos ⟨rfl, rfl⟩]
  unfold classifyHumanMove
  rw [hd]
  rw [if_neg (by unfold BLUNDER_THRESHOLD; omega),
    if_neg (by unfold MISTAKE_THRESHOLD; omega),
    if_neg (fun hc => hc.2 rfl)]

/--
C2 counterexample: in `mateDoc` the human's final move delivers checkmate,
but because the pre-move evaluation is cp 10500 the drop against the
synthesized 10000 score exceeds the blunder threshold, and analyzeGame flags
the checkmate ply as a blunder — the claim's "regardless of the pre-move
evaluation" fails.
-/
theorem checkmate_ply_blunder_cex :
    analyzeGame mateEngine 0 mateAnalyze mateDoc =
      Except.ok { mateDoc with analysis := [mateEntry], status := "finished" } ∧
    mateEntry.isBlunder = true :=
  ⟨rfl, rfl⟩

/--
C2 (amended): for a human ply that ends the game in checkmate, the
synthesized post-move evaluation is mate 0 and the mover-viewpoint score
used for classification is the mate bonus 10000; provided the pre-move
advantage is at most 10150 (which holds for every mate-type pre-move
evaluation and every realistic centipawn value) the ply's AnalysisEntry
carries no mistake or blunder flag.
-/
theorem checkmate_ply_no_flags (R : RulesEngine Pos)
    (analyze : String → Except String PosAnalysis) (wP bP : String)
    (s : LoopState Pos) (m : String) (pos2 : Pos)
    (hmove : R.move s.pos m = some pos2)
    (hover : R.isGameOver pos2 = true) (hmate : R.isCheckmate pos2 = true)
    (hhuman : (((R.turn s.pos == Color.w) && (wP == "Human")) ||
      (!(R.turn s.pos == Color.w) && (bP == "Human"))) = true)
    (hbound : getCpValue s.currentAnalysis.evaluation ≤ 10150) :
    loopStep R analyze wP bP s m =
      StepOutcome.next ⟨s.i + 1, pos2, ⟨⟨EvalType.mate, 0⟩, none, ""⟩,
        s.acc ++ [{ moveNumber := s.i / 2 + 1,
                    color := if R.turn s.pos == Color.w then "white" else "black",
                    move := m, fen := R.fen pos2,
                    evaluation := s.currentAnalysis.evaluation,
                    bestMove := s.currentAnalysis.bestMove,
                    isMistake := false, isBlunder := false, comment := "" }]⟩ ∧
    cpActualResultOf ⟨EvalType.mate, 0⟩ = 10000 := by
  constructor
  · have hq : classifyHumanMove s.currentAnalysis.evaluation ⟨EvalType.mate, 0⟩
        s.currentAnalysis.bestMove = ⟨false, false, ""⟩ :=
      classifyHumanMove_mate0 _ _ hbound
    simp only [loopStep, hmove, hover, hmate, hhuman, hq, if_true]
  · unfold cpActualResultOf
    rw [if_pos ⟨rfl, rfl⟩]

/--
Witness for C2: a concrete checkmate ply with pre-move advantage cp 450 is
recorded with no mistake or blunder flag.
-/
theorem checkmate_ply_no_flags_witness :
    getCpValue (⟨EvalType.cp, 450⟩ : Evaluation) ≤ 10150 ∧
    loopStep mateEngine mateAnalyze2 ("Human") ("Computer")
        ⟨0, 0, ⟨⟨EvalType.cp, 450⟩, some ("h5h6"), ""⟩, []⟩ ("h5h7") =
      StepOutcome.next ⟨1, 1, ⟨⟨EvalType.mate, 0⟩, none, ""⟩,
        [⟨1, "white", "h5h7", "fen1", ⟨EvalType.cp, 450⟩, some ("h5h6"),
          false, false, ""⟩]⟩ ∧
    cpActualResultOf ⟨EvalType.mate, 0⟩ = 10000 :=
  ⟨by decide,
   (checkmate_ply_no_flags mateEngine mateAnalyze2 ("Human") ("Computer")
     ⟨0, 0, ⟨⟨EvalType.cp, 450⟩, some ("h5h6"), ""⟩, []⟩ ("h5h7") 1
     rfl rfl rfl rfl (by decide)).1,
   (checkmate_ply_no_flags mateEngine mateAnalyze2 ("Human") ("Computer")
     ⟨0, 0, ⟨⟨EvalType.cp, 450⟩, some ("h5h6"), ""⟩, []⟩ ("h5h7") 1
     rfl rfl rfl rfl (by decide)).2⟩

/--
C10: when the side to move in the current position is not the human's color,
makeMove fails with the not-your-turn error, and both the in-memory active
game entry and the stored game document are returned unchanged.
-/
theorem makeMove_not_human_turn (R : RulesEngine Pos)
    (best : Pos → Except String (Option String))
    (ag : ActiveGame Pos) (doc : GameDoc) (mv : String)
    (hstatus : doc.status = "playing")
    (hturn : (if ag.white == "Human" then Color.w else Color.b) ≠ R.turn ag.pos) :
    makeMove R best (some ag) (some doc) mv =
      (some ag, some doc,
        Except.error ("It\x27s not the human\x27s turn. Current turn: " ++
          colorChar (R.turn ag.pos))) := by
  simp only [makeMove]
  rw [if_neg (fun h => h hstatus), if_pos hturn]

/--
Witness for C10: with the human playing black and white to move, makeMove on
a concrete game returns the not-your-turn error and leaves both states
unchanged.
-/
theorem makeMove_not_human_turn_witness :
    wDoc.status = "playing" ∧
    makeMove wEngine (fun _ => Except.error ("no engine")) (some wActive) (some wDoc)
        ("e7e5") =
      (some wActive, some wDoc,
        Except.error ("It\x27s not the human\x27s turn. Current turn: " ++
          colorChar (wEngine.turn wActive.pos))) :=
  ⟨rfl, makeMove_not_human_turn wEngine (fun _ => Except.error ("no engine")) wActive wDoc
    ("e7e5") rfl (by decide)⟩

end Knightmare
